import Mathlib

/-!
Verification development for the rasa training-data import composition and
synthesis layer (`rasa.shared.importers.importer`): the decorator chain
`CombinedDataImporter` / `NluDataImporter` / `CoreDataImporter` /
`RetrievalModelsDataImporter` / `E2EImporter` built by
`TrainingDataImporter.load_from_dict`, together with the entity model
(`Config`, `Domain`, `StoryGraph`, `TrainingData`, `Message`) it moves around.
The importer module itself is not part of the checked-in sources (only its
test suite is), so every definition below is modelled from the specification
of that module, cross-checked against the behaviour the test suite pins down.
Accessors return `Option`: `none` models an accessor call raising
(`NotImplementedError` on the bare interface), `some` a normal return.
-/

namespace RasaImporters

/-- Modelled from the spec: a `Config` is an unordered key/value mapping read
from a training configuration file; only emptiness and equality matter at this
layer, so values are modelled as `Nat`. -/
abbrev Config := List (String × Nat)

/-- Modelled from the spec: a `Message` is an immutable mapping from the fixed
recognized keys `TEXT`, `INTENT_NAME`, `ACTION_NAME`, `ACTION_TEXT` to values;
an outer `none` means the key is absent, `some none` that the key is present
with value `None`. Two messages are equal iff their key/value mappings are. -/
structure Message where
  text : Option (Option String)
  intent : Option (Option String)
  action_name : Option (Option String)
  action_text : Option (Option String)
deriving DecidableEq, Repr

/-- A responses mapping: response/utterance name to one or more variants. -/
abbrev Responses := List (String × List String)

/-- Modelled from the spec: `TrainingData` is a set of `Message` training
examples plus a `responses` mapping. -/
structure TrainingData where
  training_examples : List Message
  responses : Responses
deriving DecidableEq, Repr

/-- Modelled from the spec: a `Domain` holds intents with their properties
(here: the `is_retrieval_intent` flag), slots, recognized `action_names` and
response `templates`. -/
structure Domain where
  intent_properties : List (String × Bool)
  slots : List String
  action_names : List String
  templates : Responses
deriving DecidableEq, Repr

/-- Modelled from the spec: the relevant dialogue event variants
`SlotSet(key, value)`, `UserUttered(text, parsed_intent_or_none)` and
`ActionExecuted(action_name, optional action_text)`. -/
inductive Event where
  | SlotSet (key value : String)
  | UserUttered (text : String) (parsed_intent : Option String)
  | ActionExecuted (action_name : String) (action_text : Option String)
deriving DecidableEq, Repr

/-- A `StoryStep` is an ordered sequence of dialogue events. -/
structure StoryStep where
  events : List Event
deriving DecidableEq, Repr

/-- A `StoryGraph` is an ordered collection of story steps. -/
structure StoryGraph where
  story_steps : List StoryStep
deriving DecidableEq, Repr

def Config.is_empty (c : Config) : Bool := c.isEmpty

def TrainingData.empty : TrainingData := ⟨[], []⟩

def TrainingData.is_empty (t : TrainingData) : Bool :=
  t.training_examples.isEmpty && t.responses.isEmpty

def Domain.empty : Domain := ⟨[], [], [], []⟩

/-- Modelled from the spec: a domain is empty when it carries no
intents/actions/slots. -/
def Domain.is_empty (d : Domain) : Bool :=
  d.intent_properties.isEmpty && d.action_names.isEmpty && d.slots.isEmpty

def StoryGraph.empty : StoryGraph := ⟨[]⟩

def StoryGraph.is_empty (sg : StoryGraph) : Bool := sg.story_steps.isEmpty

/-- Modelled from the spec: the intents flagged `is_retrieval_intent`. -/
def Domain.retrieval_intents (d : Domain) : List String :=
  (d.intent_properties.filter (fun kv => kv.2)).map (fun kv => kv.1)

/-- Union of two plain collections: keep the left list, append the elements of
the right list not already present on the left. -/
def listUnion {α : Type} [DecidableEq α] (a b : List α) : List α :=
  a ++ b.filter (fun x => decide (x ∉ a))

/-- Union of two key/value mappings: keep the left mapping, add the entries of
the right mapping whose key is not bound on the left. -/
def assocUnion {β : Type} (a b : List (String × β)) : List (String × β) :=
  a ++ b.filter (fun kv => !a.any (fun kv2 => kv2.1 == kv.1))

/-- Modelled from the spec: two domains are merged by unioning each
collection; the first occurrence wins. -/
def Domain.merge (a b : Domain) : Domain :=
  ⟨assocUnion a.intent_properties b.intent_properties,
   listUnion a.slots b.slots,
   listUnion a.action_names b.action_names,
   assocUnion a.templates b.templates⟩

/-- Modelled from the spec: merging story graphs concatenates their steps. -/
def StoryGraph.merge (a b : StoryGraph) : StoryGraph :=
  ⟨a.story_steps ++ b.story_steps⟩

/-- Modelled from the spec: merging training data unions the example sets
using message equality for deduplication and unions the responses mappings. -/
def TrainingData.merge (a b : TrainingData) : TrainingData :=
  ⟨listUnion a.training_examples b.training_examples,
   assocUnion a.responses b.responses⟩

/-- Modelled from the spec: the fixed set of built-in default action names. -/
def DEFAULT_ACTION_NAMES : List String :=
  ["action_listen", "action_restart", "action_session_start",
   "action_default_fallback", "action_deactivate_loop",
   "action_revert_fallback_events", "action_default_ask_affirmation",
   "action_default_ask_rephrase", "action_back"]

/-- Modelled from the spec: the message synthesized from a conversation
event. `UserUttered(text, parsed)` yields `Message{TEXT: text, INTENT_NAME:
parsed_intent_name_or_none}`; `ActionExecuted(name, action_text)` yields
`Message{ACTION_NAME: name, ACTION_TEXT: action_text_or_empty_string}`; other
events yield no message. -/
def message_from_conversation_event : Event → Option Message
  | Event.UserUttered text parsed =>
      some ⟨some (some text), some parsed, none, none⟩
  | Event.ActionExecuted name action_text =>
      some ⟨none, none, some (some name), some (some (action_text.getD ""))⟩
  | Event.SlotSet _ _ => none

/-- All events of a story graph, walking steps in order. -/
def StoryGraph.allEvents (sg : StoryGraph) : List Event :=
  (sg.story_steps.map StoryStep.events).flatten

/-- Modelled from the spec: the NLU training data synthesized from stories,
deduplicated by message equality before union. -/
def additional_training_data_from_stories (sg : StoryGraph) : TrainingData :=
  ⟨(sg.allEvents.filterMap message_from_conversation_event).dedup, []⟩

/-- Modelled from the spec: for every default action name, a synthesized
`Message{ACTION_NAME: name, ACTION_TEXT: ""}`. -/
def additional_training_data_from_default_actions : TrainingData :=
  ⟨DEFAULT_ACTION_NAMES.map (fun name => ⟨none, none, some (some name), some (some "")⟩),
   []⟩

/-- Modelled from the spec: the action name an `ActionExecuted` event
contributes to the domain: its `action_text` when the action is purely
end-to-end (no registered name distinct from its text), its `name`
otherwise. -/
def discovered_action_name : Event → Option String
  | Event.ActionExecuted name none => some name
  | Event.ActionExecuted name (some t) => some (if name = t then t else name)
  | _ => none

/-- The action names discovered while walking the stories. -/
def e2e_action_names (sg : StoryGraph) : List String :=
  (sg.allEvents.filterMap discovered_action_name).dedup

/-- Modelled from the spec: the End-to-End Synthesizer's domain augmentation:
wrapped domain unioned with discovered story action names and the built-in
default action names. -/
def e2e_augment_domain (d : Domain) (sg : StoryGraph) : Domain :=
  { d with action_names :=
      listUnion (listUnion d.action_names (e2e_action_names sg)) DEFAULT_ACTION_NAMES }

/-- Is `k` a retrieval-intent-relevant response key of domain `d`, i.e.
`utter_<intent>` for some retrieval intent of `d`? -/
def Domain.relevant_response_key (d : Domain) (k : String) : Bool :=
  d.retrieval_intents.any (fun i => k == "utter_" ++ i)

/-- Modelled from the spec: the Retrieval-Intent Reconciler's domain
synchronization: extend the domain's templates with the NLU responses for
retrieval intents, and ensure an action `utter_<intent>` exists for every
retrieval intent. -/
def retrieval_sync_domain (d : Domain) (nlu : TrainingData) : Domain :=
  { d with
    templates :=
      assocUnion d.templates
        (nlu.responses.filter (fun kv => d.relevant_response_key kv.1)),
    action_names :=
      listUnion d.action_names
        (d.retrieval_intents.map (fun i => "utter_" ++ i)) }

/-- The two leaf importer implementations the Composition Root can resolve. -/
inductive LeafKind where
  | rasaFile
  | multiProject
deriving DecidableEq, Repr

/-- The entity values a leaf importer produces from its project's files
(file reading and parsing are out of scope). -/
structure LeafData where
  config : Config
  domain : Domain
  stories : StoryGraph
  nlu : TrainingData

/-- Modelled from the spec: the importer chain. `base` is the bare
`TrainingDataImporter` interface; `leaf` a leaf importer together with the
entity values it produces; the other constructors are the decorator
wrappers `CombinedDataImporter`, `NluDataImporter`, `CoreDataImporter`,
`RetrievalModelsDataImporter` and `E2EImporter`. -/
inductive Importer where
  | base : Importer
  | leaf : LeafKind → Config → Domain → StoryGraph → TrainingData → Importer
  | combinedData : List Importer → Importer
  | nluData : Importer → Importer
  | coreData : Importer → Importer
  | retrievalModelsData : Importer → Importer
  | e2e : Importer → Importer

mutual

/-- Modelled from the spec: `get_config`. The bare interface raises
`NotImplementedError` (modelled as `none`); the Combining Importer returns
the first non-empty config in list order, the empty mapping if all are
empty; every wrapper forwards. -/
def get_config : Importer → Option Config
  | Importer.base => none
  | Importer.leaf _ c _ _ _ => some c
  | Importer.combinedData importers => do
      let cs ← get_config_list importers
      pure ((cs.find? (fun c => !c.is_empty)).getD [])
  | Importer.nluData w => get_config w
  | Importer.coreData w => get_config w
  | Importer.retrievalModelsData w => get_config w
  | Importer.e2e w => get_config w

def get_config_list : List Importer → Option (List Config)
  | [] => some []
  | i :: is => do
      let c ← get_config i
      let cs ← get_config_list is
      pure (c :: cs)

end

mutual

/-- Modelled from the spec: `get_stories`. The Combining Importer folds with
story-graph concatenation in list order; the NLU-only view returns an empty
graph; the other wrappers forward. -/
def get_stories : Importer → Option StoryGraph
  | Importer.base => none
  | Importer.leaf _ _ _ sg _ => some sg
  | Importer.combinedData importers => do
      let sgs ← get_stories_list importers
      pure (sgs.foldl StoryGraph.merge StoryGraph.empty)
  | Importer.nluData _ => some StoryGraph.empty
  | Importer.coreData w => get_stories w
  | Importer.retrievalModelsData w => get_stories w
  | Importer.e2e w => get_stories w

def get_stories_list : List Importer → Option (List StoryGraph)
  | [] => some []
  | i :: is => do
      let sg ← get_stories i
      let sgs ← get_stories_list is
      pure (sg :: sgs)

end

mutual

/-- Modelled from the spec: `get_nlu_data`. The Combining Importer folds with
training-data merge in list order; the Dialogue-only view returns empty
training data; the Reconciler and the NLU-only view forward; the End-to-End
Synthesizer unions the wrapped data with messages synthesized from stories
and from the default actions. -/
def get_nlu_data : Importer → Option TrainingData
  | Importer.base => none
  | Importer.leaf _ _ _ _ n => some n
  | Importer.combinedData importers => do
      let ns ← get_nlu_data_list importers
      pure (ns.foldl TrainingData.merge TrainingData.empty)
  | Importer.nluData w => get_nlu_data w
  | Importer.coreData _ => some TrainingData.empty
  | Importer.retrievalModelsData w => get_nlu_data w
  | Importer.e2e w => do
      let n ← get_nlu_data w
      let sg ← get_stories w
      pure ((n.merge (additional_training_data_from_stories sg)).merge
        additional_training_data_from_default_actions)

def get_nlu_data_list : List Importer → Option (List TrainingData)
  | [] => some []
  | i :: is => do
      let n ← get_nlu_data i
      let ns ← get_nlu_data_list is
      pure (n :: ns)

end

mutual

/-- Modelled from the spec: `get_domain`. The Combining Importer folds with
domain merge in list order; the NLU-only view returns an empty domain; the
Reconciler synchronizes the domain from the NLU responses; the End-to-End
Synthesizer augments the domain with story and default action names. -/
def get_domain : Importer → Option Domain
  | Importer.base => none
  | Importer.leaf _ _ d _ _ => some d
  | Importer.combinedData importers => do
      let ds ← get_domain_list importers
      pure (ds.foldl Domain.merge Domain.empty)
  | Importer.nluData _ => some Domain.empty
  | Importer.coreData w => get_domain w
  | Importer.retrievalModelsData w => do
      let d ← get_domain w
      let n ← get_nlu_data w
      pure (retrieval_sync_domain d n)
  | Importer.e2e w => do
      let d ← get_domain w
      let sg ← get_stories w
      pure (e2e_augment_domain d sg)

def get_domain_list : List Importer → Option (List Domain)
  | [] => some []
  | i :: is => do
      let d ← get_domain i
      let ds ← get_domain_list is
      pure (d :: ds)

end

/-- Modelled from the spec: name resolution of a configured importer entry.
Short names and fully-qualified references of the two known leaf importers
resolve; anything else is unresolvable (`None`, logged as a warning in the
source). -/
def resolve_importer_name : String → Option LeafKind
  | "RasaFileImporter" => some LeafKind.rasaFile
  | "MultiProjectImporter" => some LeafKind.multiProject
  | "rasa.shared.importers.rasa.RasaFileImporter" => some LeafKind.rasaFile
  | "rasa.shared.importers.multi_project.MultiProjectImporter" =>
      some LeafKind.multiProject
  | _ => none

/-- Build a leaf importer of the given kind over the entity values it would
read from the project's files. -/
def mk_leaf_importer (fetch : LeafKind → LeafData) (k : LeafKind) : Importer :=
  Importer.leaf k (fetch k).config (fetch k).domain (fetch k).stories (fetch k).nlu

/-- Modelled from the spec: the leaf importer kinds the Composition Root
resolves from the configured `importers` list: unresolvable entries are
skipped, and an empty or entirely-unresolvable list falls back to the single
default `RasaFileImporter`. -/
def resolved_leaf_kinds (names : List String) : List LeafKind :=
  let resolved := names.filterMap resolve_importer_name
  if resolved.isEmpty then [LeafKind.rasaFile] else resolved

/-- Modelled from the spec: `TrainingDataImporter.load_from_dict`: resolve
the leaf importers from the declarative configuration (the value of its
optional `importers` list) and return the fully wrapped chain
`E2EImporter(RetrievalModelsDataImporter(CombinedDataImporter(leaves)))`. -/
def load_from_dict (names : List String) (fetch : LeafKind → LeafData) : Importer :=
  Importer.e2e (Importer.retrievalModelsData
    (Importer.combinedData ((resolved_leaf_kinds names).map (mk_leaf_importer fetch))))

/-- Modelled from the spec: `TrainingDataImporter.load_from_config` reads the
configuration file (out of scope) and delegates to `load_from_dict` on the
importers list it contains. -/
def load_from_config (names : List String) (fetch : LeafKind → LeafData) : Importer :=
  load_from_dict names fetch

/-- The class of the outermost node of an importer, as the test suite's
`isinstance` checks see it. -/
def importer_class : Importer → String
  | Importer.base => "TrainingDataImporter"
  | Importer.leaf LeafKind.rasaFile _ _ _ _ => "RasaFileImporter"
  | Importer.leaf LeafKind.multiProject _ _ _ _ => "MultiProjectImporter"
  | Importer.combinedData _ => "CombinedDataImporter"
  | Importer.nluData _ => "NluDataImporter"
  | Importer.coreData _ => "CoreDataImporter"
  | Importer.retrievalModelsData _ => "RetrievalModelsDataImporter"
  | Importer.e2e _ => "E2EImporter"

/-- The single importer a decorator wraps (`.importer` / `._importer`). -/
def wrapped_importer : Importer → Option Importer
  | Importer.nluData w => some w
  | Importer.coreData w => some w
  | Importer.retrievalModelsData w => some w
  | Importer.e2e w => some w
  | _ => none

/-- The source list of a Combining Importer (`._importers`). -/
def sub_importers : Importer → Option (List Importer)
  | Importer.combinedData importers => some importers
  | _ => none

/-- Value bound to key `k` in an association list (first binding wins). -/
def lookup_key {β : Type} (k : String) (l : List (String × β)) : Option β :=
  (l.find? (fun kv => kv.1 == k)).map (fun kv => kv.2)

/-- Concrete stories used to exercise the End-to-End Synthesizer, with a
repeated `ActionExecuted` event. -/
def c1_stories : StoryGraph :=
  ⟨[⟨[Event.SlotSet "some slot" "x",
      Event.UserUttered "greet_from_stories" (some "greet_from_stories"),
      Event.ActionExecuted "utter_greet_from_stories" none]⟩,
    ⟨[Event.UserUttered "how are you doing?" none,
      Event.ActionExecuted "utter_greet_from_stories" (some "Hi Joey."),
      Event.ActionExecuted "utter_greet_from_stories" (some "Hi Joey.")]⟩]⟩

/-- Concrete wrapped NLU data with one conventional training example. -/
def c1_base : TrainingData :=
  ⟨[⟨some (some "hello"), some (some "greet"), none, none⟩], []⟩

/-- Concrete wrapped source for the End-to-End Synthesizer. -/
def c1_source : Importer :=
  Importer.leaf LeafKind.rasaFile [("language", 1)] Domain.empty c1_stories c1_base

/-- The NLU data the End-to-End Synthesizer returns over `c1_source`. -/
def c1_result : TrainingData :=
  (get_nlu_data (Importer.e2e c1_source)).getD TrainingData.empty

/-- Concrete domain with the intent `chitchat` flagged retrieval. -/
def c2_domain : Domain := ⟨[("chitchat", true)], [], [], []⟩

/-- Concrete NLU data with responses for the retrieval intent `chitchat`. -/
def c2_nlu : TrainingData := ⟨[], [("utter_chitchat", ["Hey!", "Hi!"])]⟩

/-- Concrete wrapped source for the Retrieval-Intent Reconciler. -/
def c2_source : Importer :=
  Importer.leaf LeafKind.rasaFile [("language", 1)] c2_domain StoryGraph.empty c2_nlu

/-- The domain the Retrieval-Intent Reconciler returns over `c2_source`. -/
def c2_result : Domain :=
  (get_domain (Importer.retrievalModelsData c2_source)).getD Domain.empty

/-- Concrete stories containing purely end-to-end actions. -/
def c4_stories : StoryGraph :=
  ⟨[⟨[Event.UserUttered "greet_from_stories" (some "greet_from_stories"),
      Event.ActionExecuted "utter_greet_from_stories" none]⟩,
    ⟨[Event.ActionExecuted "Hi Joey." (some "Hi Joey."),
      Event.ActionExecuted "sunny outside" (some "sunny outside")]⟩]⟩

/-- Concrete wrapped domain with one registered action. -/
def c4_domain : Domain := ⟨[], [], ["utter_existing"], []⟩

/-- Concrete wrapped source for domain augmentation. -/
def c4_source : Importer :=
  Importer.leaf LeafKind.rasaFile [] c4_domain c4_stories TrainingData.empty

/-- The domain the End-to-End Synthesizer returns over `c4_source`. -/
def c4_result : Domain :=
  (get_domain (Importer.e2e c4_source)).getD Domain.empty

/-- Concrete leaf data used when exercising the Composition Root. -/
def c6_fetch : LeafKind → LeafData :=
  fun _ => ⟨[("language", 1)], Domain.empty, StoryGraph.empty, TrainingData.empty⟩

/-- Concrete source `A` with an empty config. -/
def c7_first : Importer :=
  Importer.leaf LeafKind.rasaFile [] Domain.empty StoryGraph.empty TrainingData.empty

/-- Concrete source `B` with config `{"k": 1}`. -/
def c7_second : Importer :=
  Importer.leaf LeafKind.multiProject [("k", 1)] Domain.empty StoryGraph.empty TrainingData.empty

/-- Concrete wrapped NLU data for the monotonicity check. -/
def c8_base : TrainingData :=
  ⟨[⟨some (some "hello"), some (some "greet"), none, none⟩], []⟩

/-- Concrete stories with an event not represented in `c8_base`. -/
def c8_stories : StoryGraph := ⟨[⟨[Event.UserUttered "how are you doing?" none]⟩]⟩

/-- Concrete wrapped source for the monotonicity check. -/
def c8_source : Importer :=
  Importer.leaf LeafKind.rasaFile [] Domain.empty c8_stories c8_base

/-- The NLU data the End-to-End Synthesizer returns over `c8_source`. -/
def c8_result : TrainingData :=
  (get_nlu_data (Importer.e2e c8_source)).getD TrainingData.empty

/-- Concrete config for the idempotence check. -/
def c9_config : Config := [("language", 2)]

/-- Concrete domain for the idempotence check. -/
def c9_domain : Domain :=
  ⟨[("greet", false)], ["name"], ["utter_greet"], [("utter_greet", ["Hi"])]⟩

/-- Concrete stories for the idempotence check. -/
def c9_stories : StoryGraph := ⟨[⟨[Event.ActionExecuted "utter_greet" none]⟩]⟩

/-- Concrete NLU data for the idempotence check. -/
def c9_nlu : TrainingData :=
  ⟨[⟨some (some "hello"), some (some "greet"), none, none⟩], [("utter_bye", ["Bye"])]⟩

/-- Concrete single source for the idempotence check. -/
def c9_source : Importer :=
  Importer.leaf LeafKind.rasaFile c9_config c9_domain c9_stories c9_nlu

theorem mem_listUnion {α : Type} [DecidableEq α] {x : α} {a b : List α} :
    x ∈ listUnion a b ↔ x ∈ a ∨ x ∈ b := by
  simp only [listUnion, List.mem_append, List.mem_filter, decide_eq_true_eq]
  tauto

theorem listUnion_nil_left {α : Type} [DecidableEq α] (b : List α) :
    listUnion [] b = b := by
  simp [listUnion]

theorem assocUnion_nil_left {β : Type} (b : List (String × β)) :
    assocUnion [] b = b := by
  simp [assocUnion]

theorem nodup_listUnion {α : Type} [DecidableEq α] {a b : List α}
    (ha : a.Nodup) (hb : b.Nodup) : (listUnion a b).Nodup := by
  refine List.Nodup.append ha (hb.filter _) ?_
  intro x hxa hxf
  have hx := (List.mem_filter.mp hxf).2
  simp only [decide_eq_true_eq] at hx
  exact hx hxa

theorem trainingData_empty_merge (n : TrainingData) :
    TrainingData.empty.merge n = n := by
  simp [TrainingData.merge, TrainingData.empty, listUnion_nil_left, assocUnion_nil_left]

theorem domain_empty_merge (d : Domain) : Domain.empty.merge d = d := by
  simp [Domain.merge, Domain.empty, listUnion_nil_left, assocUnion_nil_left]

theorem storyGraph_empty_merge (sg : StoryGraph) :
    StoryGraph.empty.merge sg = sg := rfl

theorem lookup_key_append {β : Type} (k : String) (a b : List (String × β)) :
    lookup_key k (a ++ b) = (lookup_key k a).or (lookup_key k b) := by
  rcases h : a.find? (fun kv => kv.1 == k) with _ | kv <;>
    simp [lookup_key, List.find?_append, h]

theorem lookup_key_eq_none {β : Type} {k : String} {a : List (String × β)} :
    lookup_key k a = none ↔ ∀ kv ∈ a, ¬kv.1 = k := by
  simp [lookup_key, List.find?_eq_none]

theorem lookup_key_filter {β : Type} {k : String} {p : String × β → Bool}
    {l : List (String × β)} (h : ∀ kv ∈ l, kv.1 = k → p kv = true) :
    lookup_key k (l.filter p) = lookup_key k l := by
  induction l with
  | nil => rfl
  | cons hd tl ih =>
    by_cases hk : hd.1 = k
    · have hp : p hd = true := h hd (by simp) hk
      rw [List.filter_cons_of_pos hp]
      simp [lookup_key, List.find?_cons_of_pos, hk]
    · have hrec := ih (fun kv hm hkv => h kv (by simp [hm]) hkv)
      by_cases hp : p hd = true
      · rw [List.filter_cons_of_pos hp]
        simpa [lookup_key, List.find?_cons_of_neg, hk] using hrec
      · rw [List.filter_cons_of_neg (by simpa using hp)]
        rw [hrec]
        simp [lookup_key, List.find?_cons_of_neg, hk]

theorem mem_allEvents {sg : StoryGraph} {st : StoryStep} {e : Event}
    (hst : st ∈ sg.story_steps) (he : e ∈ st.events) : e ∈ sg.allEvents := by
  simp only [StoryGraph.allEvents, List.mem_flatten, List.mem_map]
  exact ⟨st.events, ⟨st, hst, rfl⟩, he⟩

theorem default_action_messages_nodup :
    additional_training_data_from_default_actions.training_examples.Nodup := by
  decide

theorem mem_additional_training_data_from_stories {sg : StoryGraph} {st : StoryStep}
    {e : Event} {m : Message} (hst : st ∈ sg.story_steps) (he : e ∈ st.events)
    (hm : message_from_conversation_event e = some m) :
    m ∈ (additional_training_data_from_stories sg).training_examples := by
  simp only [additional_training_data_from_stories, List.mem_dedup, List.mem_filterMap]
  exact ⟨e, mem_allEvents hst he, hm⟩

theorem get_nlu_data_e2e_eq {w : Importer} {b : TrainingData} {sg : StoryGraph}
    (hb : get_nlu_data w = some b) (hs : get_stories w = some sg) :
    get_nlu_data (Importer.e2e w) =
      some ((b.merge (additional_training_data_from_stories sg)).merge
        additional_training_data_from_default_actions) := by
  simp [get_nlu_data, hb, hs]

theorem get_domain_e2e_eq {w : Importer} {d : Domain} {sg : StoryGraph}
    (hd : get_domain w = some d) (hs : get_stories w = some sg) :
    get_domain (Importer.e2e w) = some (e2e_augment_domain d sg) := by
  simp [get_domain, hd, hs]

theorem get_domain_retrieval_eq {w : Importer} {d : Domain} {n : TrainingData}
    (hd : get_domain w = some d) (hn : get_nlu_data w = some n) :
    get_domain (Importer.retrievalModelsData w) = some (retrieval_sync_domain d n) := by
  simp [get_domain, hd, hn]

/-- C10: Calling any of the four accessors (`get_config`, `get_domain`,
`get_stories`, `get_nlu_data`) on the base `TrainingDataImporter` interface
itself raises `NotImplementedError` (modelled as `none`) for every such
call. -/
theorem base_interface_all_accessors_raise :
    get_config Importer.base = none ∧ get_domain Importer.base = none ∧
    get_stories Importer.base = none ∧ get_nlu_data Importer.base = none :=
  ⟨rfl, rfl, rfl, rfl⟩

/-- C5: Projection purity: for any wrapped source, the NLU-only view's
`get_domain` returns an empty `Domain` and its `get_stories` an empty
`StoryGraph` while `get_config` and `get_nlu_data` forward unchanged; the
Dialogue-only view's `get_nlu_data` returns an empty `TrainingData` while
`get_config`, `get_domain` and `get_stories` forward unchanged. -/
theorem projection_wrappers_purity (w : Importer) :
    get_domain (Importer.nluData w) = some Domain.empty
    ∧ Domain.empty.is_empty = true
    ∧ get_stories (Importer.nluData w) = some StoryGraph.empty
    ∧ StoryGraph.empty.is_empty = true
    ∧ get_config (Importer.nluData w) = get_config w
    ∧ get_nlu_data (Importer.nluData w) = get_nlu_data w
    ∧ get_nlu_data (Importer.coreData w) = some TrainingData.empty
    ∧ TrainingData.empty.is_empty = true
    ∧ get_config (Importer.coreData w) = get_config w
    ∧ get_domain (Importer.coreData w) = get_domain w
    ∧ get_stories (Importer.coreData w) = get_stories w :=
  ⟨rfl, rfl, rfl, rfl, rfl, rfl, rfl, rfl, rfl, rfl, rfl⟩

/-- C3: For every declarative configuration (any value of the optional
importers list), the Composition Root `load_from_dict` / `load_from_config`
returns an `E2EImporter` (outermost) whose wrapped importer is a
`RetrievalModelsDataImporter`, which in turn wraps a `CombinedDataImporter`
over the resolved leaf importers. -/
theorem load_from_dict_returns_wrapped_chain (names : List String)
    (fetch : LeafKind → LeafData) :
    importer_class (load_from_dict names fetch) = "E2EImporter"
    ∧ (wrapped_importer (load_from_dict names fetch)).map importer_class =
        some "RetrievalModelsDataImporter"
    ∧ ((wrapped_importer (load_from_dict names fetch)).bind wrapped_importer).map
        importer_class = some "CombinedDataImporter"
    ∧ ((wrapped_importer (load_from_dict names fetch)).bind wrapped_importer).bind
        sub_importers = some ((resolved_leaf_kinds names).map (mk_leaf_importer fetch))
    ∧ load_from_config names fetch = load_from_dict names fetch :=
  ⟨rfl, rfl, rfl, rfl, rfl⟩

/-- C6: Every entry of the configured importers list whose name cannot be
resolved is skipped without failing the whole chain, and an empty or
entirely-unresolvable list falls back to a single default `RasaFileImporter`
leaf. -/
theorem unresolvable_importers_skipped_with_fallback :
    (∀ (names₁ names₂ : List String) (name : String) (fetch : LeafKind → LeafData),
        resolve_importer_name name = none →
        load_from_dict (names₁ ++ name :: names₂) fetch =
          load_from_dict (names₁ ++ names₂) fetch)
    ∧ (∀ (names : List String) (fetch : LeafKind → LeafData),
        (∀ n ∈ names, resolve_importer_name n = none) →
        load_from_dict names fetch =
          Importer.e2e (Importer.retrievalModelsData
            (Importer.combinedData [mk_leaf_importer fetch LeafKind.rasaFile]))) := by
  constructor
  · intro names₁ names₂ name fetch h
    simp [load_from_dict, resolved_leaf_kinds, List.filterMap_append,
      List.filterMap_cons, h]
  · intro names fetch h
    have hnil : names.filterMap resolve_importer_name = [] :=
      List.filterMap_eq_nil_iff.mpr h
    simp [load_from_dict, resolved_leaf_kinds, hnil]

/-- Witness for C6 at a concrete unresolvable entry. -/
theorem unresolvable_importers_skipped_with_fallback_witness :
    resolve_importer_name "NotExistingModule" = none
    ∧ load_from_dict ["RasaFileImporter", "NotExistingModule"] c6_fetch =
        load_from_dict ["RasaFileImporter"] c6_fetch
    ∧ load_from_dict ["NotExistingModule"] c6_fetch =
        Importer.e2e (Importer.retrievalModelsData
          (Importer.combinedData [mk_leaf_importer c6_fetch LeafKind.rasaFile])) :=
  ⟨rfl,
   unresolvable_importers_skipped_with_fallback.1 ["RasaFileImporter"] []
     "NotExistingModule" c6_fetch rfl,
   unresolvable_importers_skipped_with_fallback.2 ["NotExistingModule"] c6_fetch
     (by decide)⟩

/-- C7: `CombinedDataImporter.get_config` returns the first non-empty config
encountered in list order, the empty mapping if all sources' configs are
empty; in particular for sources `[A(config={}), B(config={"k": 1})]` it
returns `{"k": 1}`. -/
theorem combining_importer_config_precedence :
    (∀ (importers : List Importer) (cs : List Config) (c : Config),
        get_config_list importers = some cs →
        cs.find? (fun x => !x.is_empty) = some c →
        get_config (Importer.combinedData importers) = some c)
    ∧ (∀ (importers : List Importer) (cs : List Config),
        get_config_list importers = some cs →
        (∀ x ∈ cs, x = []) →
        get_config (Importer.combinedData importers) = some [])
    ∧ (∀ (kA kB : LeafKind) (dA dB : Domain) (sA sB : StoryGraph)
        (nA nB : TrainingData),
        get_config (Importer.combinedData
          [Importer.leaf kA [] dA sA nA, Importer.leaf kB [("k", 1)] dB sB nB]) =
          some [("k", 1)]) := by
  refine ⟨?_, ?_, ?_⟩
  · intro importers cs c h1 h2
    simp [get_config, h1, h2]
  · intro importers cs h1 h2
    have hfind : cs.find? (fun x => !x.is_empty) = none :=
      List.find?_eq_none.mpr (fun x hx => by simp [h2 x hx, Config.is_empty])
    simp [get_config, h1, hfind]
  · intro kA kB dA dB sA sB nA nB
    rfl

/-- Witness for C7 at the concrete sources `A(config={})`,
`B(config={"k": 1})`. -/
theorem combining_importer_config_precedence_witness :
    get_config_list [c7_first, c7_second] = some [[], [("k", 1)]]
    ∧ ([[], [("k", 1)]] : List Config).find? (fun x => !x.is_empty) =
        some [("k", 1)]
    ∧ get_config (Importer.combinedData [c7_first, c7_second]) = some [("k", 1)] :=
  ⟨rfl, by decide,
   combining_importer_config_precedence.1 [c7_first, c7_second]
     [[], [("k", 1)]] [("k", 1)] rfl (by decide)⟩

/-- C9: Idempotence of combining: for any single source, the Combining
Importer built over it yields results for all four accessors structurally
equal to that source's own results. -/
theorem combined_single_source_idempotence :
    ∀ (s : Importer) (c : Config) (d : Domain) (sg : StoryGraph) (n : TrainingData),
      get_config s = some c → get_domain s = some d → get_stories s = some sg →
      get_nlu_data s = some n →
      get_config (Importer.combinedData [s]) = some c
      ∧ get_domain (Importer.combinedData [s]) = some d
      ∧ get_stories (Importer.combinedData [s]) = some sg
      ∧ get_nlu_data (Importer.combinedData [s]) = some n := by
  intro s c d sg n hc hd hs hn
  refine ⟨?_, ?_, ?_, ?_⟩
  · rcases c with _ | ⟨kv, rest⟩
    · simp [get_config, get_config_list, hc, Config.is_empty, List.find?]
    · simp [get_config, get_config_list, hc, Config.is_empty, List.find?]
  · simp [get_domain, get_domain_list, hd, domain_empty_merge]
  · simp [get_stories, get_stories_list, hs, storyGraph_empty_merge]
  · simp [get_nlu_data, get_nlu_data_list, hn, trainingData_empty_merge]

/-- Witness for C9 at a concrete single source. -/
theorem combined_single_source_idempotence_witness :
    get_config c9_source = some c9_config ∧ get_domain c9_source = some c9_domain
    ∧ get_stories c9_source = some c9_stories ∧ get_nlu_data c9_source = some c9_nlu
    ∧ get_config (Importer.combinedData [c9_source]) = some c9_config
    ∧ get_domain (Importer.combinedData [c9_source]) = some c9_domain
    ∧ get_stories (Importer.combinedData [c9_source]) = some c9_stories
    ∧ get_nlu_data (Importer.combinedData [c9_source]) = some c9_nlu := by
  have h := combined_single_source_idempotence c9_source c9_config c9_domain
    c9_stories c9_nlu rfl rfl rfl rfl
  exact ⟨rfl, rfl, rfl, rfl, h.1, h.2.1, h.2.2.1, h.2.2.2⟩

/-- C4: For the End-to-End Synthesizer, `get_domain` returns the wrapped
domain unioned with the action names discovered while walking the stories
(including an `ActionExecuted` event's `action_text` when the action is
purely end-to-end) and with the fixed set of built-in default action names;
in particular, for a story containing
`ActionExecuted("Hi Joey.", action_text="Hi Joey.")`, the returned domain's
`action_names` contains `"Hi Joey."`. -/
theorem e2e_importer_domain_augmentation :
    ∀ (w : Importer) (d d' : Domain) (sg : StoryGraph),
      get_domain w = some d → get_stories w = some sg →
      get_domain (Importer.e2e w) = some d' →
      (∀ a ∈ d.action_names, a ∈ d'.action_names)
      ∧ (∀ st ∈ sg.story_steps, ∀ e ∈ st.events, ∀ a,
          discovered_action_name e = some a → a ∈ d'.action_names)
      ∧ (∀ a ∈ DEFAULT_ACTION_NAMES, a ∈ d'.action_names)
      ∧ (∀ st ∈ sg.story_steps,
          Event.ActionExecuted "Hi Joey." (some "Hi Joey.") ∈ st.events →
          "Hi Joey." ∈ d'.action_names) := by
  intro w d d' sg hd hs he
  have hd' : d' = e2e_augment_domain d sg := by
    rw [get_domain_e2e_eq hd hs] at he
    exact (Option.some.inj he).symm
  subst hd'
  have hdisc : ∀ st ∈ sg.story_steps, ∀ e ∈ st.events, ∀ a,
      discovered_action_name e = some a →
      a ∈ (e2e_augment_domain d sg).action_names := by
    intro st hst e hev a ha
    show a ∈ listUnion (listUnion d.action_names (e2e_action_names sg))
      DEFAULT_ACTION_NAMES
    refine mem_listUnion.mpr (Or.inl (mem_listUnion.mpr (Or.inr ?_)))
    simp only [e2e_action_names, List.mem_dedup, List.mem_filterMap]
    exact ⟨e, mem_allEvents hst hev, ha⟩
  refine ⟨?_, hdisc, ?_, ?_⟩
  · intro a ha
    exact mem_listUnion.mpr (Or.inl (mem_listUnion.mpr (Or.inl ha)))
  · intro a ha
    exact mem_listUnion.mpr (Or.inr ha)
  · intro st hst hev
    exact hdisc st hst (Event.ActionExecuted "Hi Joey." (some "Hi Joey.")) hev
      "Hi Joey." (by decide)

/-- Witness for C4 at a concrete story with purely end-to-end actions. -/
theorem e2e_importer_domain_augmentation_witness :
    get_domain c4_source = some c4_domain ∧ get_stories c4_source = some c4_stories
    ∧ get_domain (Importer.e2e c4_source) = some c4_result
    ∧ "Hi Joey." ∈ c4_result.action_names
    ∧ "sunny outside" ∈ c4_result.action_names := by
  have h := e2e_importer_domain_augmentation c4_source c4_domain c4_result
    c4_stories rfl rfl rfl
  refine ⟨rfl, rfl, rfl, ?_, ?_⟩
  · exact h.2.2.2
      ⟨[Event.ActionExecuted "Hi Joey." (some "Hi Joey."),
        Event.ActionExecuted "sunny outside" (some "sunny outside")]⟩
      (by decide) (by decide)
  · exact h.2.1
      ⟨[Event.ActionExecuted "Hi Joey." (some "Hi Joey."),
        Event.ActionExecuted "sunny outside" (some "sunny outside")]⟩
      (by decide) (Event.ActionExecuted "sunny outside" (some "sunny outside"))
      (by decide) "sunny outside" (by decide)

/-- C2: For the Retrieval-Intent Reconciler, after `get_domain`: for any
wrapped source whose domain has an intent flagged retrieval and whose NLU
data has responses for it, every retrieval-intent-relevant response key is
mapped in the returned domain's `templates` exactly as in the NLU
`responses` (provided the wrapped domain does not bind the key to a
conflicting value, which the source asserts), and for every retrieval intent
in the returned domain an action named `utter_<intent>` is in its
`action_names`; `get_nlu_data` forwards unchanged. -/
theorem retrieval_reconciler_domain_sync :
    ∀ (w : Importer) (d d' : Domain) (nlu : TrainingData),
      get_domain w = some d → get_nlu_data w = some nlu →
      get_domain (Importer.retrievalModelsData w) = some d' →
      (∀ k v, d.relevant_response_key k = true →
          lookup_key k nlu.responses = some v →
          (lookup_key k d.templates = none ∨ lookup_key k d.templates = some v) →
          lookup_key k d'.templates = some v)
      ∧ (∀ i ∈ d'.retrieval_intents, ("utter_" ++ i) ∈ d'.action_names)
      ∧ get_nlu_data (Importer.retrievalModelsData w) = some nlu := by
  intro w d d' nlu hd hn hsync
  have hd' : d' = retrieval_sync_domain d nlu := by
    rw [get_domain_retrieval_eq hd hn] at hsync
    exact (Option.some.inj hsync).symm
  subst hd'
  refine ⟨?_, ?_, hn⟩
  · intro k v hrel hlook hassert
    show lookup_key k (assocUnion d.templates
      (nlu.responses.filter (fun kv => d.relevant_response_key kv.1))) = some v
    rw [assocUnion, lookup_key_append]
    rcases hassert with hnone | hsome
    · rw [hnone, Option.none_or]
      have hnok : ∀ kv ∈ d.templates, ¬kv.1 = k := lookup_key_eq_none.mp hnone
      rw [lookup_key_filter (p := fun kv =>
          !d.templates.any (fun kv2 => kv2.1 == kv.1))]
      · rw [lookup_key_filter (p := fun kv => d.relevant_response_key kv.1)]
        · exact hlook
        · intro kv _ hk
          rw [hk]
          exact hrel
      · intro kv _ hk
        simp only [Bool.not_eq_true', List.any_eq_false]
        intro kv2 h2
        simp only [hk, beq_iff_eq]
        exact hnok kv2 h2
    · rw [hsome]
      rfl
  · intro i hi
    have hi' : i ∈ d.retrieval_intents := hi
    show ("utter_" ++ i) ∈ listUnion d.action_names
      (d.retrieval_intents.map (fun j => "utter_" ++ j))
    exact mem_listUnion.mpr (Or.inr (List.mem_map.mpr ⟨i, hi', rfl⟩))

/-- Witness for C2 at a concrete domain with the retrieval intent
`chitchat` and NLU responses for `utter_chitchat`. -/
theorem retrieval_reconciler_domain_sync_witness :
    get_domain c2_source = some c2_domain ∧ get_nlu_data c2_source = some c2_nlu
    ∧ get_domain (Importer.retrievalModelsData c2_source) = some c2_result
    ∧ lookup_key "utter_chitchat" c2_result.templates = some ["Hey!", "Hi!"]
    ∧ "utter_chitchat" ∈ c2_result.action_names := by
  have h := retrieval_reconciler_domain_sync c2_source c2_domain c2_result c2_nlu
    rfl rfl rfl
  refine ⟨rfl, rfl, rfl, ?_, ?_⟩
  · exact h.1 "utter_chitchat" ["Hey!", "Hi!"] (by decide) (by decide) (Or.inl rfl)
  · exact h.2.1 "chitchat" (by decide)

/-- C1: For the End-to-End Synthesizer, `get_nlu_data` returns the wrapped
NLU data unioned with synthesized messages: for every
`UserUttered(text, parsed)` event in every story step a
`Message{TEXT: text, INTENT_NAME: parsed_intent_name_or_none}`, and for
every `ActionExecuted(name, action_text)` event a
`Message{ACTION_NAME: name, ACTION_TEXT: action_text_or_empty_string}`,
deduplicated by message equality so that repeated identical events
contribute exactly one message. -/
theorem e2e_importer_nlu_synthesis :
    ∀ (w : Importer) (b nlu : TrainingData) (sg : StoryGraph),
      get_nlu_data w = some b → get_stories w = some sg →
      get_nlu_data (Importer.e2e w) = some nlu →
      (∀ m ∈ b.training_examples, m ∈ nlu.training_examples)
      ∧ (∀ st ∈ sg.story_steps, ∀ text parsed,
          Event.UserUttered text parsed ∈ st.events →
          (⟨some (some text), some parsed, none, none⟩ : Message) ∈
            nlu.training_examples)
      ∧ (∀ st ∈ sg.story_steps, ∀ name atext,
          Event.ActionExecuted name atext ∈ st.events →
          (⟨none, none, some (some name), some (some (atext.getD ""))⟩ : Message) ∈
            nlu.training_examples)
      ∧ (b.training_examples.Nodup →
          ∀ st ∈ sg.story_steps, ∀ e ∈ st.events, ∀ m,
            message_from_conversation_event e = some m →
            nlu.training_examples.count m = 1) := by
  intro w b nlu sg hb hs he
  have hnlu : nlu = (b.merge (additional_training_data_from_stories sg)).merge
      additional_training_data_from_default_actions := by
    rw [get_nlu_data_e2e_eq hb hs] at he
    exact (Option.some.inj he).symm
  subst hnlu
  have hsynth : ∀ st ∈ sg.story_steps, ∀ e ∈ st.events, ∀ m,
      message_from_conversation_event e = some m →
      m ∈ ((b.merge (additional_training_data_from_stories sg)).merge
        additional_training_data_from_default_actions).training_examples := by
    intro st hst e hev m hm
    show m ∈ listUnion (listUnion b.training_examples
      (additional_training_data_from_stories sg).training_examples)
      additional_training_data_from_default_actions.training_examples
    exact mem_listUnion.mpr (Or.inl (mem_listUnion.mpr
      (Or.inr (mem_additional_training_data_from_stories hst hev hm))))
  refine ⟨?_, ?_, ?_, ?_⟩
  · intro m hm
    exact mem_listUnion.mpr (Or.inl (mem_listUnion.mpr (Or.inl hm)))
  · intro st hst text parsed hev
    exact hsynth st hst (Event.UserUttered text parsed) hev _ rfl
  · intro st hst name atext hev
    exact hsynth st hst (Event.ActionExecuted name atext) hev _ rfl
  · intro hnd st hst e hev m hm
    have hnodup : (listUnion (listUnion b.training_examples
        (additional_training_data_from_stories sg).training_examples)
        additional_training_data_from_default_actions.training_examples).Nodup :=
      nodup_listUnion (nodup_listUnion hnd (List.nodup_dedup _))
        default_action_messages_nodup
    exact List.count_eq_one_of_mem hnodup (hsynth st hst e hev m hm)

/-- Witness for C1 at a concrete story set with a repeated
`ActionExecuted` event. -/
theorem e2e_importer_nlu_synthesis_witness :
    get_nlu_data c1_source = some c1_base ∧ get_stories c1_source = some c1_stories
    ∧ get_nlu_data (Importer.e2e c1_source) = some c1_result
    ∧ (⟨some (some "how are you doing?"), some none, none, none⟩ : Message) ∈
        c1_result.training_examples
    ∧ c1_result.training_examples.count
        ⟨none, none, some (some "utter_greet_from_stories"),
         some (some "Hi Joey.")⟩ = 1 := by
  have h := e2e_importer_nlu_synthesis c1_source c1_base c1_result c1_stories
    rfl rfl rfl
  refine ⟨rfl, rfl, rfl, ?_, ?_⟩
  · exact h.2.1
      ⟨[Event.UserUttered "how are you doing?" none,
        Event.ActionExecuted "utter_greet_from_stories" (some "Hi Joey."),
        Event.ActionExecuted "utter_greet_from_stories" (some "Hi Joey.")]⟩
      (by decide) "how are you doing?" none (by decide)
  · exact h.2.2.2 (by decide)
      ⟨[Event.UserUttered "how are you doing?" none,
        Event.ActionExecuted "utter_greet_from_stories" (some "Hi Joey."),
        Event.ActionExecuted "utter_greet_from_stories" (some "Hi Joey.")]⟩
      (by decide)
      (Event.ActionExecuted "utter_greet_from_stories" (some "Hi Joey."))
      (by decide)
      ⟨none, none, some (some "utter_greet_from_stories"), some (some "Hi Joey.")⟩
      rfl

/-- C8: Synthesis monotonicity: the number of training examples returned by
the End-to-End Synthesizer's `get_nlu_data` is greater than or equal to the
number in the wrapped source's `get_nlu_data`, and strictly greater whenever
the story graph contains at least one event not already represented as a
message. -/
theorem e2e_importer_synthesis_monotonicity :
    ∀ (w : Importer) (b nlu : TrainingData) (sg : StoryGraph),
      get_nlu_data w = some b → get_stories w = some sg →
      get_nlu_data (Importer.e2e w) = some nlu →
      b.training_examples.Nodup →
      b.training_examples.length ≤ nlu.training_examples.length
      ∧ ((∃ st ∈ sg.story_steps, ∃ e ∈ st.events, ∃ m,
            message_from_conversation_event e = some m ∧
            m ∉ b.training_examples) →
          b.training_examples.length < nlu.training_examples.length) := by
  intro w b nlu sg hb hs he hnd
  have hnlu : nlu = (b.merge (additional_training_data_from_stories sg)).merge
      additional_training_data_from_default_actions := by
    rw [get_nlu_data_e2e_eq hb hs] at he
    exact (Option.some.inj he).symm
  subst hnlu
  have hsub : b.training_examples ⊆
      ((b.merge (additional_training_data_from_stories sg)).merge
        additional_training_data_from_default_actions).training_examples := by
    intro x hx
    exact mem_listUnion.mpr (Or.inl (mem_listUnion.mpr (Or.inl hx)))
  constructor
  · exact (List.subperm_of_subset hnd hsub).length_le
  · rintro ⟨st, hst, e, hev, m, hm, hnotin⟩
    have hmN : m ∈ ((b.merge (additional_training_data_from_stories sg)).merge
        additional_training_data_from_default_actions).training_examples :=
      mem_listUnion.mpr (Or.inl (mem_listUnion.mpr
        (Or.inr (mem_additional_training_data_from_stories hst hev hm))))
    have hcons : (m :: b.training_examples).Nodup :=
      List.nodup_cons.mpr ⟨hnotin, hnd⟩
    have hsub2 : (m :: b.training_examples) ⊆
        ((b.merge (additional_training_data_from_stories sg)).merge
          additional_training_data_from_default_actions).training_examples := by
      intro x hx
      rcases List.mem_cons.mp hx with hx | hx
      · subst hx
        exact hmN
      · exact hsub hx
    have hle := (List.subperm_of_subset hcons hsub2).length_le
    simpa [Nat.succ_le_iff] using hle

/-- Witness for C8 at a concrete story whose single event is not represented
in the wrapped NLU data. -/
theorem e2e_importer_synthesis_monotonicity_witness :
    get_nlu_data c8_source = some c8_base ∧ get_stories c8_source = some c8_stories
    ∧ get_nlu_data (Importer.e2e c8_source) = some c8_result
    ∧ c8_base.training_examples.Nodup
    ∧ c8_base.training_examples.length < c8_result.training_examples.length := by
  have h := e2e_importer_synthesis_monotonicity c8_source c8_base c8_result
    c8_stories rfl rfl rfl (by decide)
  refine ⟨rfl, rfl, rfl, by decide, ?_⟩
  exact h.2 ⟨⟨[Event.UserUttered "how are you doing?" none]⟩, by decide,
    Event.UserUttered "how are you doing?" none, by decide,
    ⟨some (some "how are you doing?"), some none, none, none⟩, rfl, by decide⟩

end RasaImporters
